import Mathlib

/-!
Verification of the ledger engine in `src/server/src/bank.rs` (struct `Bank`
and its methods).  The Rust `HashSet<String>` of account names is embedded as
a duplicate-free `List String`; the `HashMap`s for balances and the
per-account operation index are embedded as association lists with
replace-on-insert semantics (`insertA`) mirroring `HashMap::insert`, and
push-or-create semantics (`appendIdx`) mirroring `append_account_index`.
Machine integers (`u32` balances and amounts, `usize` operation ids) are
embedded as `Nat`; the unchecked `u32` addition in `increase_account` and
`transfer` is embedded as addition modulo `2 ^ 32` (release-mode wrapping
semantics of the plain `+` in the source).  Fallible methods returning
`Result` are embedded as functions returning the `Except` result together
with the final state, so that a method that mutates `self` before failing
would visibly return a changed state.
-/

abbrev OperationId := Nat

inductive Operation where
  | createAccount : String → Operation
  | increaseAccount : String → Nat → Operation
  | decreaseAccount : String → Nat → Operation
  | transfer : String → String → Nat → Operation
deriving DecidableEq, Repr

/-- The error enum of the source.  Note that the source has NO dedicated
not-found variant: `check_exists_account` and `get_account_balance` signal a
missing account through `AccountAlreadyExists(format!("Account {} does not
exist", account))`. -/
inductive BankError where
  | accountAlreadyExists : String → BankError
  | incorrectAmount : Nat → BankError
  | insufficientFunds : Nat → BankError
  | transferToMyself : BankError
deriving DecidableEq, Repr

/-- `2 ^ 32`, the modulus of Rust `u32` wrapping arithmetic. -/
def U32MOD : Nat := 2 ^ 32

/-- Association-list lookup, embedding `HashMap::get`. -/
def lookupA {α : Type} : List (String × α) → String → Option α
  | [], _ => none
  | (a, v) :: t, k => if a = k then some v else lookupA t k

/-- Association-list insert with replacement, embedding `HashMap::insert`. -/
def insertA {α : Type} : List (String × α) → String → α → List (String × α)
  | [], k, v => [(k, v)]
  | (a, w) :: t, k, v => if a = k then (k, v) :: t else (a, w) :: insertA t k v

/-- Embeds `append_account_index`: if the key is present push `id` onto its
vector, otherwise insert a fresh singleton vector. -/
def appendIdx : List (String × List OperationId) → String → OperationId →
    List (String × List OperationId)
  | [], k, id => [(k, [id])]
  | (a, v) :: t, k, id =>
      if a = k then (a, v ++ [id]) :: t else (a, v) :: appendIdx t k id

/-- The ledger state: account set, balances, per-account operation index and
the global history, mirroring the four fields of the Rust `Bank`. -/
structure Bank where
  accounts : List String
  balances : List (String × Nat)
  account_operations_index : List (String × List OperationId)
  history : List Operation
deriving DecidableEq, Repr

def notExistMsg (account : String) : String :=
  "Account " ++ account ++ " does not exist"

def alreadyExistsMsg (account : String) : String :=
  "Account " ++ account ++ " already exists"

/-- `Bank::new`. -/
def Bank.new : Bank := ⟨[], [], [], []⟩

/-- `check_zero_amount`. -/
def Bank.check_zero_amount (_b : Bank) (amount : Nat) : Except BankError Unit :=
  if amount = 0 then Except.error (BankError.incorrectAmount amount)
  else Except.ok ()

/-- `check_exists_account` (takes `&mut self` in the source but never
mutates).  A missing account is reported through the `AccountAlreadyExists`
variant, exactly as in the source. -/
def Bank.check_exists_account (b : Bank) (account : String) :
    Except BankError Unit :=
  if account ∉ b.accounts then
    Except.error (BankError.accountAlreadyExists (notExistMsg account))
  else Except.ok ()

/-- `get_account_balance`.  The source unwraps the balance lookup; the
`getD 0` default is unreachable on states satisfying the balance invariant. -/
def Bank.get_account_balance (b : Bank) (account : String) :
    Except BankError Nat :=
  if account ∉ b.accounts then
    Except.error (BankError.accountAlreadyExists (notExistMsg account))
  else Except.ok ((lookupA b.balances account).getD 0)

/-- `append_history`: push the operation and return its index (the length
before the push). -/
def Bank.append_history (b : Bank) (operation : Operation) :
    Bank × OperationId :=
  ({ b with history := b.history ++ [operation] }, b.history.length)

/-- `append_account_index` lifted to the bank state. -/
def Bank.append_account_index (b : Bank) (account : String)
    (id : OperationId) : Bank :=
  { b with account_operations_index :=
      appendIdx b.account_operations_index account id }

/-- `create_account`.  Returns the result together with the final state. -/
def Bank.create_account (b : Bank) (account : String) :
    Except BankError OperationId × Bank :=
  if account ∉ b.accounts then
    let b1 : Bank := { b with accounts := b.accounts ++ [account],
                              balances := insertA b.balances account 0 }
    let p := b1.append_history (Operation.createAccount account)
    (Except.ok p.2, p.1.append_account_index account p.2)
  else
    (Except.error (BankError.accountAlreadyExists (alreadyExistsMsg account)),
     b)

/-- `increase_account`.  The new balance is the wrapping `u32` sum. -/
def Bank.increase_account (b : Bank) (account : String) (amount : Nat) :
    Except BankError OperationId × Bank :=
  match b.check_exists_account account with
  | Except.error e => (Except.error e, b)
  | Except.ok _ =>
    match b.check_zero_amount amount with
    | Except.error e => (Except.error e, b)
    | Except.ok _ =>
      let current_balance := (lookupA b.balances account).getD 0
      let new_balance := (current_balance + amount) % U32MOD
      let b1 : Bank := { b with balances := insertA b.balances account new_balance }
      let p := b1.append_history (Operation.increaseAccount account amount)
      (Except.ok p.2, p.1.append_account_index account p.2)

/-- `decrease_account`. -/
def Bank.decrease_account (b : Bank) (account : String) (amount : Nat) :
    Except BankError OperationId × Bank :=
  match b.check_exists_account account with
  | Except.error e => (Except.error e, b)
  | Except.ok _ =>
    match b.check_zero_amount amount with
    | Except.error e => (Except.error e, b)
    | Except.ok _ =>
      let current_balance := (lookupA b.balances account).getD 0
      if current_balance < amount then
        (Except.error (BankError.insufficientFunds amount), b)
      else
        let b1 : Bank := { b with balances := insertA b.balances account (current_balance - amount) }
        let p := b1.append_history (Operation.decreaseAccount account amount)
        (Except.ok p.2, p.1.append_account_index account p.2)

/-- `transfer`.  Field names follow the source (`from` is a Lean keyword, so
the parameters are `source` and `target`). -/
def Bank.transfer (b : Bank) (source target : String) (amount : Nat) :
    Except BankError Unit × Bank :=
  if source = target then (Except.error BankError.transferToMyself, b)
  else
    match b.check_exists_account source with
    | Except.error e => (Except.error e, b)
    | Except.ok _ =>
      match b.check_exists_account target with
      | Except.error e => (Except.error e, b)
      | Except.ok _ =>
        match b.check_zero_amount amount with
        | Except.error e => (Except.error e, b)
        | Except.ok _ =>
          let current_balance_from := (lookupA b.balances source).getD 0
          if current_balance_from < amount then
            (Except.error (BankError.insufficientFunds amount), b)
          else
            let b1 : Bank := { b with balances := insertA b.balances source (current_balance_from - amount) }
            let current_balance_to := (lookupA b1.balances target).getD 0
            let b2 : Bank := { b1 with balances := insertA b1.balances target ((current_balance_to + amount) % U32MOD) }
            let p := b2.append_history (Operation.transfer source target amount)
            (Except.ok (), (p.1.append_account_index source p.2).append_account_index target p.2)

/-- `get_history`. -/
def Bank.get_history (b : Bank) : List Operation := b.history

/-- `get_account_history`.  The source indexes `self.history[*id]`; the
`getD` default is unreachable on reachable states, where every indexed id is
in range. -/
def Bank.get_account_history (b : Bank) (account : String) :
    Option (List Operation) :=
  (lookupA b.account_operations_index account).map
    (fun ids => ids.map (fun id => b.history.getD id (Operation.createAccount "")))

/-- One step of `restore`.  `CreateAccount`, `IncreaseAccount` and
`Transfer` entries discard the operation result (`let _ = ...`), keeping the
resulting state; a `DecreaseAccount` entry is `.unwrap()`ed, so a rejected
decrease aborts the replay (`none` embeds the panic). -/
def Bank.restore1 (b : Bank) (op : Operation) : Option Bank :=
  match op with
  | Operation.createAccount account => some (b.create_account account).2
  | Operation.increaseAccount account amount =>
      some (b.increase_account account amount).2
  | Operation.decreaseAccount account amount =>
      match b.decrease_account account amount with
      | (Except.ok _, b2) => some b2
      | (Except.error _, _) => none
  | Operation.transfer source target amount =>
      some (b.transfer source target amount).2

/-- `restore`: fold `restore1` over the given history, aborting (`none`)
when a step panics. -/
def Bank.restore (b : Bank) : List Operation → Option Bank
  | [] => some b
  | op :: rest =>
      match b.restore1 op with
      | none => none
      | some b2 => b2.restore rest

/-- Issuing one command to a live engine: the state component of the
corresponding method (unchanged when the method rejects, since every error
is returned before any store write). -/
def Bank.applyOp (b : Bank) (op : Operation) : Bank :=
  match op with
  | Operation.createAccount account => (b.create_account account).2
  | Operation.increaseAccount account amount =>
      (b.increase_account account amount).2
  | Operation.decreaseAccount account amount =>
      (b.decrease_account account amount).2
  | Operation.transfer source target amount =>
      (b.transfer source target amount).2

def Bank.applyOps (b : Bank) (ops : List Operation) : Bank :=
  ops.foldl Bank.applyOp b

/-- A state is reachable when some command sequence produces it from the
empty ledger. -/
def Reachable (b : Bank) : Prop :=
  ∃ ops : List Operation, b = Bank.applyOps Bank.new ops

example :
    (Bank.applyOps Bank.new
      [Operation.createAccount "X", Operation.createAccount "Y",
       Operation.increaseAccount "X" 10,
       Operation.transfer "X" "Y" 5]).get_account_balance "X" =
    Except.ok 5 := rfl

example :
    (Bank.applyOps Bank.new
      [Operation.createAccount "X", Operation.increaseAccount "X" 10,
       Operation.decreaseAccount "X" 4]).history =
    [Operation.createAccount "X", Operation.increaseAccount "X" 10,
     Operation.decreaseAccount "X" 4] := by decide

/-! ### Association-list lemmas -/

theorem lookupA_insertA_self {α : Type} (l : List (String × α)) (k : String)
    (v : α) : lookupA (insertA l k v) k = some v := by
  induction l with
  | nil => simp [insertA, lookupA]
  | cons p t ih =>
    obtain ⟨a, w⟩ := p
    by_cases h : a = k
    · simp [insertA, lookupA, h]
    · simp [insertA, lookupA, h, ih]

theorem lookupA_insertA_ne {α : Type} (l : List (String × α)) (k k' : String)
    (v : α) (h : k ≠ k') : lookupA (insertA l k v) k' = lookupA l k' := by
  induction l with
  | nil => simp [insertA, lookupA, h]
  | cons p t ih =>
    obtain ⟨a, w⟩ := p
    by_cases ha : a = k
    · subst ha
      simp [insertA, lookupA, h]
    · simp [insertA, lookupA, ha, ih]

theorem lookupA_appendIdx_self (l : List (String × List OperationId))
    (k : String) (id : OperationId) :
    lookupA (appendIdx l k id) k = some ((lookupA l k).getD [] ++ [id]) := by
  induction l with
  | nil => simp [appendIdx, lookupA]
  | cons p t ih =>
    obtain ⟨a, w⟩ := p
    by_cases h : a = k
    · subst h
      simp [appendIdx, lookupA]
    · simp [appendIdx, lookupA, h, ih]

theorem lookupA_appendIdx_ne (l : List (String × List OperationId))
    (k k' : String) (id : OperationId) (h : k ≠ k') :
    lookupA (appendIdx l k id) k' = lookupA l k' := by
  induction l with
  | nil => simp [appendIdx, lookupA, h]
  | cons p t ih =>
    obtain ⟨a, w⟩ := p
    by_cases ha : a = k
    · subst ha
      simp [appendIdx, lookupA, h]
    · simp [appendIdx, lookupA, ha, ih]

theorem lookupA_isSome_iff {α : Type} (l : List (String × α)) (k : String) :
    (lookupA l k).isSome = true ↔ k ∈ l.map Prod.fst := by
  induction l with
  | nil => simp [lookupA]
  | cons p t ih =>
    obtain ⟨a, w⟩ := p
    by_cases h : a = k
    · subst h
      simp [lookupA]
    · simp [lookupA, h, ih, Ne.symm h]

theorem insertA_of_not_mem {α : Type} (l : List (String × α)) (k : String)
    (v : α) (h : k ∉ l.map Prod.fst) : insertA l k v = l ++ [(k, v)] := by
  induction l with
  | nil => simp [insertA]
  | cons p t ih =>
    obtain ⟨a, w⟩ := p
    simp only [List.map_cons, List.mem_cons] at h
    push_neg at h
    simp [insertA, Ne.symm h.1, ih h.2]

theorem insertA_map_fst_of_mem {α : Type} (l : List (String × α)) (k : String)
    (v : α) (h : k ∈ l.map Prod.fst) :
    (insertA l k v).map Prod.fst = l.map Prod.fst := by
  induction l with
  | nil => simp at h
  | cons p t ih =>
    obtain ⟨a, w⟩ := p
    by_cases ha : a = k
    · subst ha
      simp [insertA]
    · have h2 : k = a ∨ k ∈ t.map Prod.fst := by simpa using h
      rcases h2 with h2 | h2
      · exact absurd h2.symm ha
      · simp [insertA, ha, ih h2]

theorem mem_insertA {α : Type} (l : List (String × α)) (k : String) (v : α)
    (p : String × α) (h : p ∈ insertA l k v) : p ∈ l ∨ p = (k, v) := by
  induction l with
  | nil =>
    simp [insertA] at h
    exact Or.inr h
  | cons q t ih =>
    obtain ⟨a, w⟩ := q
    by_cases ha : a = k
    · subst ha
      have he : insertA ((a, w) :: t) a v = (a, v) :: t := by simp [insertA]
      rw [he] at h
      rcases List.mem_cons.mp h with h1 | h1
      · exact Or.inr h1
      · exact Or.inl (List.mem_cons_of_mem _ h1)
    · have he : insertA ((a, w) :: t) k v = (a, w) :: insertA t k v := by
        simp [insertA, ha]
      rw [he] at h
      rcases List.mem_cons.mp h with h1 | h1
      · exact Or.inl (by rw [h1]; exact List.mem_cons_self _ _)
      · rcases ih h1 with h2 | h2
        · exact Or.inl (List.mem_cons_of_mem _ h2)
        · exact Or.inr h2

theorem lookupA_mem {α : Type} (l : List (String × α)) (k : String) (v : α)
    (h : lookupA l k = some v) : (k, v) ∈ l := by
  induction l with
  | nil => simp [lookupA] at h
  | cons p t ih =>
    obtain ⟨a, w⟩ := p
    by_cases ha : a = k
    · subst ha
      simp [lookupA] at h
      simp [h]
    · simp [lookupA, ha] at h
      exact List.mem_cons_of_mem _ (ih h)

/-! ### Equation lemmas for the engine operations -/

theorem create_ok_eq (b : Bank) (a : String) (h : a ∉ b.accounts) :
    b.create_account a =
      (Except.ok b.history.length,
       ⟨b.accounts ++ [a], insertA b.balances a 0,
        appendIdx b.account_operations_index a b.history.length,
        b.history ++ [Operation.createAccount a]⟩) := by
  simp [Bank.create_account, h, Bank.append_history, Bank.append_account_index]

theorem create_err_eq (b : Bank) (a : String) (h : a ∈ b.accounts) :
    b.create_account a =
      (Except.error (BankError.accountAlreadyExists (alreadyExistsMsg a)), b) := by
  simp [Bank.create_account, h]

theorem increase_ok_eq (b : Bank) (a : String) (n : Nat) (h : a ∈ b.accounts)
    (hn : n ≠ 0) :
    b.increase_account a n =
      (Except.ok b.history.length,
       ⟨b.accounts,
        insertA b.balances a (((lookupA b.balances a).getD 0 + n) % U32MOD),
        appendIdx b.account_operations_index a b.history.length,
        b.history ++ [Operation.increaseAccount a n]⟩) := by
  simp [Bank.increase_account, Bank.check_exists_account, Bank.check_zero_amount,
        h, hn, Bank.append_history, Bank.append_account_index]

theorem increase_err_notfound (b : Bank) (a : String) (n : Nat)
    (h : a ∉ b.accounts) :
    b.increase_account a n =
      (Except.error (BankError.accountAlreadyExists (notExistMsg a)), b) := by
  simp [Bank.increase_account, Bank.check_exists_account, h]

theorem increase_err_zero (b : Bank) (a : String) (h : a ∈ b.accounts) :
    b.increase_account a 0 =
      (Except.error (BankError.incorrectAmount 0), b) := by
  simp [Bank.increase_account, Bank.check_exists_account, Bank.check_zero_amount, h]

theorem decrease_ok_eq (b : Bank) (a : String) (n : Nat) (h : a ∈ b.accounts)
    (hn : n ≠ 0) (hge : ¬ (lookupA b.balances a).getD 0 < n) :
    b.decrease_account a n =
      (Except.ok b.history.length,
       ⟨b.accounts,
        insertA b.balances a ((lookupA b.balances a).getD 0 - n),
        appendIdx b.account_operations_index a b.history.length,
        b.history ++ [Operation.decreaseAccount a n]⟩) := by
  simp [Bank.decrease_account, Bank.check_exists_account, Bank.check_zero_amount,
        h, hn, hge, Bank.append_history, Bank.append_account_index]

theorem decrease_err_notfound (b : Bank) (a : String) (n : Nat)
    (h : a ∉ b.accounts) :
    b.decrease_account a n =
      (Except.error (BankError.accountAlreadyExists (notExistMsg a)), b) := by
  simp [Bank.decrease_account, Bank.check_exists_account, h]

theorem decrease_err_zero (b : Bank) (a : String) (h : a ∈ b.accounts) :
    b.decrease_account a 0 =
      (Except.error (BankError.incorrectAmount 0), b) := by
  simp [Bank.decrease_account, Bank.check_exists_account, Bank.check_zero_amount, h]

theorem decrease_err_insufficient (b : Bank) (a : String) (n : Nat)
    (h : a ∈ b.accounts) (hn : n ≠ 0)
    (hlt : (lookupA b.balances a).getD 0 < n) :
    b.decrease_account a n =
      (Except.error (BankError.insufficientFunds n), b) := by
  simp [Bank.decrease_account, Bank.check_exists_account, Bank.check_zero_amount,
        h, hn, hlt]

theorem transfer_ok_eq (b : Bank) (s t : String) (n : Nat) (hne : s ≠ t)
    (hs : s ∈ b.accounts) (ht : t ∈ b.accounts) (hn : n ≠ 0)
    (hge : ¬ (lookupA b.balances s).getD 0 < n) :
    b.transfer s t n =
      (Except.ok (),
       ⟨b.accounts,
        insertA (insertA b.balances s ((lookupA b.balances s).getD 0 - n)) t
          (((lookupA b.balances t).getD 0 + n) % U32MOD),
        appendIdx (appendIdx b.account_operations_index s b.history.length) t
          b.history.length,
        b.history ++ [Operation.transfer s t n]⟩) := by
  simp [Bank.transfer, Bank.check_exists_account, Bank.check_zero_amount,
        hne, hs, ht, hn, hge, Bank.append_history, Bank.append_account_index,
        lookupA_insertA_ne _ _ _ _ hne]

theorem transfer_err_self (b : Bank) (s : String) (n : Nat) :
    b.transfer s s n = (Except.error BankError.transferToMyself, b) := by
  simp [Bank.transfer]

theorem transfer_err_src (b : Bank) (s t : String) (n : Nat) (hne : s ≠ t)
    (hs : s ∉ b.accounts) :
    b.transfer s t n =
      (Except.error (BankError.accountAlreadyExists (notExistMsg s)), b) := by
  simp [Bank.transfer, Bank.check_exists_account, hne, hs]

theorem transfer_err_dst (b : Bank) (s t : String) (n : Nat) (hne : s ≠ t)
    (hs : s ∈ b.accounts) (ht : t ∉ b.accounts) :
    b.transfer s t n =
      (Except.error (BankError.accountAlreadyExists (notExistMsg t)), b) := by
  simp [Bank.transfer, Bank.check_exists_account, hne, hs, ht]

theorem transfer_err_zero (b : Bank) (s t : String) (hne : s ≠ t)
    (hs : s ∈ b.accounts) (ht : t ∈ b.accounts) :
    b.transfer s t 0 = (Except.error (BankError.incorrectAmount 0), b) := by
  simp [Bank.transfer, Bank.check_exists_account, Bank.check_zero_amount,
        hne, hs, ht]

theorem transfer_err_insufficient (b : Bank) (s t : String) (n : Nat)
    (hne : s ≠ t) (hs : s ∈ b.accounts) (ht : t ∈ b.accounts) (hn : n ≠ 0)
    (hlt : (lookupA b.balances s).getD 0 < n) :
    b.transfer s t n = (Except.error (BankError.insufficientFunds n), b) := by
  simp [Bank.transfer, Bank.check_exists_account, Bank.check_zero_amount,
        hne, hs, ht, hn, hlt]

/-! ### Frame lemmas: a rejected operation leaves the state unchanged -/

theorem create_snd_frame (b : Bank) (a : String) (e : BankError)
    (he : (b.create_account a).1 = Except.error e) :
    (b.create_account a).2 = b := by
  by_cases h : a ∈ b.accounts
  · simp [create_err_eq b a h]
  · simp [create_ok_eq b a h] at he

theorem increase_snd_frame (b : Bank) (a : String) (n : Nat) (e : BankError)
    (he : (b.increase_account a n).1 = Except.error e) :
    (b.increase_account a n).2 = b := by
  by_cases h : a ∈ b.accounts
  · by_cases hn : n = 0
    · subst hn
      simp [increase_err_zero b a h]
    · simp [increase_ok_eq b a n h hn] at he
  · simp [increase_err_notfound b a n h]

theorem decrease_snd_frame (b : Bank) (a : String) (n : Nat) (e : BankError)
    (he : (b.decrease_account a n).1 = Except.error e) :
    (b.decrease_account a n).2 = b := by
  by_cases h : a ∈ b.accounts
  · by_cases hn : n = 0
    · subst hn
      simp [decrease_err_zero b a h]
    · by_cases hlt : (lookupA b.balances a).getD 0 < n
      · simp [decrease_err_insufficient b a n h hn hlt]
      · simp [decrease_ok_eq b a n h hn hlt] at he
  · simp [decrease_err_notfound b a n h]

theorem transfer_snd_frame (b : Bank) (s t : String) (n : Nat) (e : BankError)
    (he : (b.transfer s t n).1 = Except.error e) :
    (b.transfer s t n).2 = b := by
  by_cases hne : s = t
  · subst hne
    simp [transfer_err_self]
  · by_cases hs : s ∈ b.accounts
    · by_cases ht : t ∈ b.accounts
      · by_cases hn : n = 0
        · subst hn
          simp [transfer_err_zero b s t hne hs ht]
        · by_cases hlt : (lookupA b.balances s).getD 0 < n
          · simp [transfer_err_insufficient b s t n hne hs ht hn hlt]
          · simp [transfer_ok_eq b s t n hne hs ht hn hlt] at he
      · simp [transfer_err_dst b s t n hne hs ht]
    · simp [transfer_err_src b s t n hne hs]

/-! ### Replay machinery -/

/-- Every live command either rejects (leaving the state unchanged) or
appends itself to the history and replays to exactly the same state. -/
theorem applyOp_dichotomy (b : Bank) (op : Operation) :
    Bank.applyOp b op = b ∨
    ((Bank.applyOp b op).history = b.history ++ [op] ∧
     Bank.restore1 b op = some (Bank.applyOp b op)) := by
  cases op with
  | createAccount a =>
    by_cases h : a ∈ b.accounts
    · exact Or.inl (by simp [Bank.applyOp, create_err_eq b a h])
    · refine Or.inr ⟨?_, ?_⟩
      · simp [Bank.applyOp, create_ok_eq b a h]
      · simp [Bank.restore1, Bank.applyOp]
  | increaseAccount a n =>
    by_cases h : a ∈ b.accounts
    · by_cases hn : n = 0
      · subst hn
        exact Or.inl (by simp [Bank.applyOp, increase_err_zero b a h])
      · refine Or.inr ⟨?_, ?_⟩
        · simp [Bank.applyOp, increase_ok_eq b a n h hn]
        · simp [Bank.restore1, Bank.applyOp]
    · exact Or.inl (by simp [Bank.applyOp, increase_err_notfound b a n h])
  | decreaseAccount a n =>
    by_cases h : a ∈ b.accounts
    · by_cases hn : n = 0
      · subst hn
        exact Or.inl (by simp [Bank.applyOp, decrease_err_zero b a h])
      · by_cases hlt : (lookupA b.balances a).getD 0 < n
        · exact Or.inl
            (by simp [Bank.applyOp, decrease_err_insufficient b a n h hn hlt])
        · refine Or.inr ⟨?_, ?_⟩
          · simp [Bank.applyOp, decrease_ok_eq b a n h hn hlt]
          · simp [Bank.restore1, Bank.applyOp, decrease_ok_eq b a n h hn hlt]
    · exact Or.inl (by simp [Bank.applyOp, decrease_err_notfound b a n h])
  | transfer s t n =>
    by_cases hne : s = t
    · subst hne
      exact Or.inl (by simp [Bank.applyOp, transfer_err_self])
    · by_cases hs : s ∈ b.accounts
      · by_cases ht : t ∈ b.accounts
        · by_cases hn : n = 0
          · subst hn
            exact Or.inl (by simp [Bank.applyOp, transfer_err_zero b s t hne hs ht])
          · by_cases hlt : (lookupA b.balances s).getD 0 < n
            · exact Or.inl
                (by simp [Bank.applyOp, transfer_err_insufficient b s t n hne hs ht hn hlt])
            · refine Or.inr ⟨?_, ?_⟩
              · simp [Bank.applyOp, transfer_ok_eq b s t n hne hs ht hn hlt]
              · simp [Bank.restore1, Bank.applyOp]
        · exact Or.inl (by simp [Bank.applyOp, transfer_err_dst b s t n hne hs ht])
      · exact Or.inl (by simp [Bank.applyOp, transfer_err_src b s t n hne hs])

theorem restore_append (b : Bank) (l1 l2 : List Operation) :
    b.restore (l1 ++ l2) = (b.restore l1).bind (fun x => x.restore l2) := by
  induction l1 generalizing b with
  | nil => simp [Bank.restore]
  | cons op t ih =>
    simp only [List.cons_append, Bank.restore]
    cases h : b.restore1 op with
    | none => simp
    | some b2 => simp [ih b2]

theorem restore_applyOp (b : Bank) (op : Operation)
    (h : Bank.new.restore b.history = some b) :
    Bank.new.restore (Bank.applyOp b op).history =
      some (Bank.applyOp b op) := by
  rcases applyOp_dichotomy b op with heq | ⟨hh, hr⟩
  · rw [heq]
    exact h
  · rw [hh, restore_append, h]
    simp [Bank.restore, hr]

theorem restore_applyOps (ops : List Operation) :
    ∀ b : Bank, Bank.new.restore b.history = some b →
      Bank.new.restore (Bank.applyOps b ops).history =
        some (Bank.applyOps b ops) := by
  induction ops with
  | nil =>
    intro b h
    simpa [Bank.applyOps] using h
  | cons op t ih =>
    intro b h
    have h2 := restore_applyOp b op h
    simpa [Bank.applyOps] using ih (Bank.applyOp b op) h2

/-! ### Claim C1 -/

/-- C1: for every ledger `L1` reachable from the empty bank by engine
operations, replaying `get_history L1` into a fresh bank succeeds, yields a
bank whose history equals `get_history L1`, and gives every account of `L1`
the same `get_account_balance` result as in `L1`. -/
theorem restore_replay_reproduces (L1 : Bank) (h : Reachable L1) :
    ∃ L2 : Bank, Bank.new.restore L1.get_history = some L2 ∧
      L2.get_history = L1.get_history ∧
      ∀ A ∈ L1.accounts,
        L2.get_account_balance A = L1.get_account_balance A := by
  obtain ⟨ops, rfl⟩ := h
  refine ⟨Bank.applyOps Bank.new ops, ?_, rfl, fun A _ => rfl⟩
  exact restore_applyOps ops Bank.new rfl

theorem restore_replay_reproduces_witness :
    ∃ L2 : Bank,
      Bank.new.restore (Bank.applyOps Bank.new
        [Operation.createAccount "X", Operation.createAccount "Y",
         Operation.increaseAccount "X" 10,
         Operation.transfer "X" "Y" 5]).get_history = some L2 ∧
      L2.get_history = (Bank.applyOps Bank.new
        [Operation.createAccount "X", Operation.createAccount "Y",
         Operation.increaseAccount "X" 10,
         Operation.transfer "X" "Y" 5]).get_history ∧
      ∀ A ∈ (Bank.applyOps Bank.new
        [Operation.createAccount "X", Operation.createAccount "Y",
         Operation.increaseAccount "X" 10,
         Operation.transfer "X" "Y" 5]).accounts,
        L2.get_account_balance A =
          (Bank.applyOps Bank.new
            [Operation.createAccount "X", Operation.createAccount "Y",
             Operation.increaseAccount "X" 10,
             Operation.transfer "X" "Y" 5]).get_account_balance A :=
  restore_replay_reproduces _
    ⟨[Operation.createAccount "X", Operation.createAccount "Y",
      Operation.increaseAccount "X" 10, Operation.transfer "X" "Y" 5], rfl⟩

/-! ### Claim C2 -/

/-- C2 (code bug): `restore` silently skips a rejected `IncreaseAccount`
entry.  On an empty bank the entry `IncreaseAccount "X" 5` is rejected by the
validating path (`increase_account` returns an error), yet `restore` of the
one-entry list succeeds and returns the unchanged empty bank — it neither
applies the entry nor aborts.  (Only a rejected `DecreaseAccount` entry
aborts, via `.unwrap()`; rejected `CreateAccount`, `IncreaseAccount` and
`Transfer` entries are discarded with `let _ = ...`.) -/
theorem restore_silently_skips_rejected_increase :
    (Bank.new.increase_account "X" 5).1 =
      Except.error (BankError.accountAlreadyExists (notExistMsg "X")) ∧
    Bank.new.restore [Operation.increaseAccount "X" 5] = some Bank.new ∧
    (Bank.new.restore [Operation.decreaseAccount "X" 5] = none) :=
  ⟨rfl, rfl, rfl⟩

/-! ### Claim C3 -/

/-- C3: every mutating engine operation is atomic — whenever it returns an
error, the returned state (account set, balances, history and account index)
is exactly the state before the call. -/
theorem mutating_ops_atomic_on_error (b : Bank) (a s t : String) (n : Nat)
    (e1 e2 e3 e4 : BankError) :
    ((b.create_account a).1 = Except.error e1 →
      (b.create_account a).2 = b) ∧
    ((b.increase_account a n).1 = Except.error e2 →
      (b.increase_account a n).2 = b) ∧
    ((b.decrease_account a n).1 = Except.error e3 →
      (b.decrease_account a n).2 = b) ∧
    ((b.transfer s t n).1 = Except.error e4 →
      (b.transfer s t n).2 = b) :=
  ⟨create_snd_frame b a e1, increase_snd_frame b a n e2,
   decrease_snd_frame b a n e3, transfer_snd_frame b s t n e4⟩

theorem mutating_ops_atomic_on_error_witness :
    ((Bank.applyOps Bank.new [Operation.createAccount "X"]).create_account
        "X").2 = Bank.applyOps Bank.new [Operation.createAccount "X"] ∧
    (Bank.new.increase_account "X" 5).2 = Bank.new ∧
    (Bank.new.decrease_account "X" 5).2 = Bank.new ∧
    (Bank.new.transfer "X" "Y" 5).2 = Bank.new := by
  refine ⟨?_, ?_, ?_, ?_⟩
  · exact (mutating_ops_atomic_on_error
      (Bank.applyOps Bank.new [Operation.createAccount "X"]) "X" "X" "Y" 5
      (BankError.accountAlreadyExists (alreadyExistsMsg "X"))
      (BankError.accountAlreadyExists (notExistMsg "X"))
      (BankError.accountAlreadyExists (notExistMsg "X"))
      (BankError.accountAlreadyExists (notExistMsg "X"))).1 rfl
  · exact (mutating_ops_atomic_on_error Bank.new "X" "X" "Y" 5
      (BankError.accountAlreadyExists (alreadyExistsMsg "X"))
      (BankError.accountAlreadyExists (notExistMsg "X"))
      (BankError.accountAlreadyExists (notExistMsg "X"))
      (BankError.accountAlreadyExists (notExistMsg "X"))).2.1 rfl
  · exact (mutating_ops_atomic_on_error Bank.new "X" "X" "Y" 5
      (BankError.accountAlreadyExists (alreadyExistsMsg "X"))
      (BankError.accountAlreadyExists (notExistMsg "X"))
      (BankError.accountAlreadyExists (notExistMsg "X"))
      (BankError.accountAlreadyExists (notExistMsg "X"))).2.2.1 rfl
  · exact (mutating_ops_atomic_on_error Bank.new "X" "X" "Y" 5
      (BankError.accountAlreadyExists (alreadyExistsMsg "X"))
      (BankError.accountAlreadyExists (notExistMsg "X"))
      (BankError.accountAlreadyExists (notExistMsg "X"))
      (BankError.accountAlreadyExists (notExistMsg "X"))).2.2.2 rfl

/-! ### Claim C4 -/

/-- C4 (code bug): the error enum has no dedicated not-found kind.  For a
non-existent account, `increase_account`, `decrease_account`, `transfer` and
`get_account_balance` all fail with the `accountAlreadyExists` variant
(carrying a "does not exist" message), the same error kind used when
creation hits an existing name — not a distinct `AccountNotFound` kind. -/
theorem missing_account_error_is_already_exists_kind :
    (Bank.new.increase_account "Z" 5).1 =
      Except.error (BankError.accountAlreadyExists (notExistMsg "Z")) ∧
    (Bank.new.decrease_account "Z" 5).1 =
      Except.error (BankError.accountAlreadyExists (notExistMsg "Z")) ∧
    (Bank.new.transfer "Z" "Y" 5).1 =
      Except.error (BankError.accountAlreadyExists (notExistMsg "Z")) ∧
    Bank.new.get_account_balance "Z" =
      Except.error (BankError.accountAlreadyExists (notExistMsg "Z")) ∧
    ((Bank.applyOps Bank.new [Operation.createAccount "Z"]).create_account
        "Z").1 =
      Except.error (BankError.accountAlreadyExists (alreadyExistsMsg "Z")) :=
  ⟨rfl, rfl, rfl, rfl, rfl⟩

/-! ### Claim C5 -/

/-- A reachable bank holding two accounts, with "B" at the `u32` maximum. -/
def maxedTwoAccountBank : Bank :=
  Bank.applyOps Bank.new
    [Operation.createAccount "A", Operation.createAccount "B",
     Operation.increaseAccount "A" 1,
     Operation.increaseAccount "B" (U32MOD - 1)]

/-- C5 counterexample: with distinct existing accounts "A" and "B",
`0 < 1 ≤ balance("A")` and `balance("B") = 2^32 - 1`, the transfer succeeds
but "B" ends at balance `0`, not at its old balance increased by the
amount — the credit wraps modulo `2^32`. -/
theorem transfer_overflow_counterexample :
    ("A" : String) ≠ "B" ∧
    "A" ∈ maxedTwoAccountBank.accounts ∧
    "B" ∈ maxedTwoAccountBank.accounts ∧
    lookupA maxedTwoAccountBank.balances "A" = some 1 ∧
    lookupA maxedTwoAccountBank.balances "B" = some (U32MOD - 1) ∧
    (maxedTwoAccountBank.transfer "A" "B" 1).1 = Except.ok () ∧
    lookupA (maxedTwoAccountBank.transfer "A" "B" 1).2.balances "B" =
      some 0 ∧
    (0 : Nat) ≠ (U32MOD - 1) + 1 :=
  ⟨by decide, by decide, by decide, rfl, rfl, rfl, rfl, by decide⟩

/-- C5 (amended): for distinct existing accounts with recorded balances
`bf` (source) and `bt` (target) and `0 < n ≤ bf`, the transfer succeeds,
debits the source by `n`, sets the target balance to `(bt + n) % 2^32`
(an increase by `n` whenever no `u32` overflow occurs), appends exactly one
`Transfer` entry to the history, and appends that single entry's
OperationId to both accounts' index entries. -/
theorem transfer_success_spec (b : Bank) (s t : String) (n bf bt : Nat)
    (hne : s ≠ t) (hs : s ∈ b.accounts) (ht : t ∈ b.accounts)
    (hbf : lookupA b.balances s = some bf)
    (hbt : lookupA b.balances t = some bt)
    (hn : 0 < n) (hle : n ≤ bf) :
    (b.transfer s t n).1 = Except.ok () ∧
    lookupA (b.transfer s t n).2.balances s = some (bf - n) ∧
    lookupA (b.transfer s t n).2.balances t = some ((bt + n) % U32MOD) ∧
    (b.transfer s t n).2.history =
      b.history ++ [Operation.transfer s t n] ∧
    lookupA (b.transfer s t n).2.account_operations_index s =
      some ((lookupA b.account_operations_index s).getD [] ++
        [b.history.length]) ∧
    lookupA (b.transfer s t n).2.account_operations_index t =
      some ((lookupA b.account_operations_index t).getD [] ++
        [b.history.length]) := by
  have hn0 : n ≠ 0 := by omega
  have hge : ¬ (lookupA b.balances s).getD 0 < n := by
    rw [hbf]
    simpa using hle
  rw [transfer_ok_eq b s t n hne hs ht hn0 hge]
  refine ⟨rfl, ?_, ?_, rfl, ?_, ?_⟩
  · rw [lookupA_insertA_ne _ _ _ _ (Ne.symm hne), lookupA_insertA_self, hbf]
    simp
  · rw [lookupA_insertA_self, hbt]
    simp
  · rw [lookupA_appendIdx_ne _ _ _ _ (Ne.symm hne), lookupA_appendIdx_self]
  · rw [lookupA_appendIdx_self, lookupA_appendIdx_ne _ _ _ _ hne]

theorem transfer_success_spec_witness :
    (maxedTwoAccountBank.transfer "A" "B" 1).1 = Except.ok () ∧
    lookupA (maxedTwoAccountBank.transfer "A" "B" 1).2.balances "A" =
      some (1 - 1) ∧
    lookupA (maxedTwoAccountBank.transfer "A" "B" 1).2.balances "B" =
      some (((U32MOD - 1) + 1) % U32MOD) ∧
    (maxedTwoAccountBank.transfer "A" "B" 1).2.history =
      maxedTwoAccountBank.history ++ [Operation.transfer "A" "B" 1] ∧
    lookupA (maxedTwoAccountBank.transfer "A" "B" 1).2.account_operations_index
        "A" =
      some ((lookupA maxedTwoAccountBank.account_operations_index "A").getD []
        ++ [maxedTwoAccountBank.history.length]) ∧
    lookupA (maxedTwoAccountBank.transfer "A" "B" 1).2.account_operations_index
        "B" =
      some ((lookupA maxedTwoAccountBank.account_operations_index "B").getD []
        ++ [maxedTwoAccountBank.history.length]) :=
  transfer_success_spec maxedTwoAccountBank "A" "B" 1 1 (U32MOD - 1)
    (by decide) (by decide) (by decide) rfl rfl (by decide) (by decide)

/-! ### Claim C6 -/

/-- C6: creating a fresh account succeeds with the new OperationId, adds the
account with balance 0, appends exactly one `CreateAccount` history entry and
indexes it under the name; a second creation of the same name fails with the
`accountAlreadyExists` error and appends no further history entry. -/
theorem create_account_spec (b : Bank) (A : String) (h : A ∉ b.accounts) :
    (b.create_account A).1 = Except.ok b.history.length ∧
    A ∈ (b.create_account A).2.accounts ∧
    lookupA (b.create_account A).2.balances A = some 0 ∧
    (b.create_account A).2.history =
      b.history ++ [Operation.createAccount A] ∧
    lookupA (b.create_account A).2.account_operations_index A =
      some ((lookupA b.account_operations_index A).getD [] ++
        [b.history.length]) ∧
    ((b.create_account A).2.create_account A).1 =
      Except.error (BankError.accountAlreadyExists (alreadyExistsMsg A)) ∧
    ((b.create_account A).2.create_account A).2.history =
      (b.create_account A).2.history := by
  have hmem : A ∈ (b.create_account A).2.accounts := by
    rw [create_ok_eq b A h]
    simp
  have hsecond := create_err_eq ((b.create_account A).2) A hmem
  refine ⟨?_, hmem, ?_, ?_, ?_, ?_, ?_⟩
  · rw [create_ok_eq b A h]
  · rw [create_ok_eq b A h]
    exact lookupA_insertA_self _ _ _
  · rw [create_ok_eq b A h]
  · rw [create_ok_eq b A h]
    exact lookupA_appendIdx_self _ _ _
  · rw [hsecond]
  · rw [hsecond]

theorem create_account_spec_witness :
    (Bank.new.create_account "X").1 = Except.ok Bank.new.history.length ∧
    "X" ∈ (Bank.new.create_account "X").2.accounts ∧
    lookupA (Bank.new.create_account "X").2.balances "X" = some 0 ∧
    (Bank.new.create_account "X").2.history =
      Bank.new.history ++ [Operation.createAccount "X"] ∧
    lookupA (Bank.new.create_account "X").2.account_operations_index "X" =
      some ((lookupA Bank.new.account_operations_index "X").getD [] ++
        [Bank.new.history.length]) ∧
    ((Bank.new.create_account "X").2.create_account "X").1 =
      Except.error (BankError.accountAlreadyExists (alreadyExistsMsg "X")) ∧
    ((Bank.new.create_account "X").2.create_account "X").2.history =
      (Bank.new.create_account "X").2.history :=
  create_account_spec Bank.new "X" (by decide)

/-! ### Claim C7 -/

/-- A reachable bank whose single account sits at the `u32` maximum. -/
def maxedBank : Bank :=
  Bank.applyOps Bank.new
    [Operation.createAccount "A", Operation.increaseAccount "A" (U32MOD - 1)]

/-- C7 counterexample: with balance `2^32 - 1`, `increase("A", 1)` succeeds
(wrapping the balance to 0) but the following `decrease("A", 1)` fails with
`InsufficientFunds`, so the increase/decrease pair does not round-trip for
every existing account and positive amount. -/
theorem round_trip_overflow_counterexample :
    "A" ∈ maxedBank.accounts ∧
    lookupA maxedBank.balances "A" = some (U32MOD - 1) ∧
    (maxedBank.increase_account "A" 1).1 = Except.ok 2 ∧
    ((maxedBank.increase_account "A" 1).2.decrease_account "A" 1).1 =
      Except.error (BankError.insufficientFunds 1) :=
  ⟨by decide, rfl, rfl, rfl⟩

/-- C7 (amended): for an existing account with recorded balance `bal` and
`0 < n` with `bal + n < 2^32` (no `u32` overflow), `increase(A, n)` followed
by `decrease(A, n)` succeeds and returns the balance to `bal`. -/
theorem increase_decrease_round_trip (b : Bank) (A : String) (n bal : Nat)
    (hA : A ∈ b.accounts) (hbal : lookupA b.balances A = some bal)
    (hn : 0 < n) (hof : bal + n < U32MOD) :
    (b.increase_account A n).1 = Except.ok b.history.length ∧
    ((b.increase_account A n).2.decrease_account A n).1 =
      Except.ok (b.history.length + 1) ∧
    lookupA ((b.increase_account A n).2.decrease_account A n).2.balances A =
      some bal := by
  have hn0 : n ≠ 0 := by omega
  have hq := increase_ok_eq b A n hA hn0
  have hAcc : A ∈ (b.increase_account A n).2.accounts := by
    rw [hq]
    exact hA
  have hbal1 : lookupA (b.increase_account A n).2.balances A =
      some (bal + n) := by
    rw [hq]
    simp [lookupA_insertA_self, hbal, Nat.mod_eq_of_lt hof]
  have hge : ¬ (lookupA (b.increase_account A n).2.balances A).getD 0 < n := by
    rw [hbal1]
    simp
  have hq2 := decrease_ok_eq (b.increase_account A n).2 A n hAcc hn0 hge
  refine ⟨by rw [hq], ?_, ?_⟩
  · rw [hq2, hq]
    simp
  · rw [hq2]
    simp [lookupA_insertA_self, hbal1]

theorem increase_decrease_round_trip_witness :
    ((Bank.new.applyOps [Operation.createAccount "A",
        Operation.increaseAccount "A" 7]).increase_account "A" 3).1 =
      Except.ok (Bank.new.applyOps [Operation.createAccount "A",
        Operation.increaseAccount "A" 7]).history.length ∧
    (((Bank.new.applyOps [Operation.createAccount "A",
        Operation.increaseAccount "A" 7]).increase_account "A"
        3).2.decrease_account "A" 3).1 =
      Except.ok ((Bank.new.applyOps [Operation.createAccount "A",
        Operation.increaseAccount "A" 7]).history.length + 1) ∧
    lookupA (((Bank.new.applyOps [Operation.createAccount "A",
        Operation.increaseAccount "A" 7]).increase_account "A"
        3).2.decrease_account "A" 3).2.balances "A" = some 7 :=
  increase_decrease_round_trip
    (Bank.new.applyOps [Operation.createAccount "A",
      Operation.increaseAccount "A" 7]) "A" 3 7
    (by decide) rfl (by decide) (by decide)

/-! ### Claim C10 -/

/-- C10: for an existing account with recorded balance `bal` and a positive
amount `n` with `2^32 ≤ bal + n` (the sum exceeds the `u32` maximum),
`increase_account` still succeeds, appends its `IncreaseAccount` history
entry, and sets the balance to `(bal + n) % 2^32` — unchecked wrapping
addition, never an overflow error. -/
theorem increase_overflow_wraps (b : Bank) (A : String) (n bal : Nat)
    (hA : A ∈ b.accounts) (hbal : lookupA b.balances A = some bal)
    (hn : 0 < n) (_hof : U32MOD ≤ bal + n) :
    (b.increase_account A n).1 = Except.ok b.history.length ∧
    (b.increase_account A n).2.history =
      b.history ++ [Operation.increaseAccount A n] ∧
    lookupA (b.increase_account A n).2.balances A =
      some ((bal + n) % U32MOD) := by
  have hn0 : n ≠ 0 := by omega
  rw [increase_ok_eq b A n hA hn0]
  refine ⟨rfl, rfl, ?_⟩
  rw [lookupA_insertA_self, hbal]
  simp

theorem increase_overflow_wraps_witness :
    (maxedBank.increase_account "A" 1).1 =
      Except.ok maxedBank.history.length ∧
    (maxedBank.increase_account "A" 1).2.history =
      maxedBank.history ++ [Operation.increaseAccount "A" 1] ∧
    lookupA (maxedBank.increase_account "A" 1).2.balances "A" =
      some (((U32MOD - 1) + 1) % U32MOD) :=
  increase_overflow_wraps maxedBank "A" 1 (U32MOD - 1)
    (by decide) rfl (by decide) (by decide)

/-! ### Claim C9 -/

/-- The store invariant: the balance map's key list is exactly the account
list, and every stored balance is a valid `u32` value. -/
def BankInv (b : Bank) : Prop :=
  b.balances.map Prod.fst = b.accounts ∧ ∀ p ∈ b.balances, p.2 < U32MOD

theorem bankInv_new : BankInv Bank.new :=
  ⟨rfl, by simp [Bank.new]⟩

theorem getD_balance_lt (b : Bank) (hb : ∀ p ∈ b.balances, p.2 < U32MOD)
    (a : String) : (lookupA b.balances a).getD 0 < U32MOD := by
  cases hl : lookupA b.balances a with
  | none => simp [U32MOD]
  | some v => simpa using hb _ (lookupA_mem _ _ _ hl)

theorem bankInv_applyOp (b : Bank) (op : Operation) (h : BankInv b) :
    BankInv (Bank.applyOp b op) := by
  obtain ⟨hk, hb⟩ := h
  cases op with
  | createAccount a =>
    by_cases ha : a ∈ b.accounts
    · simp only [Bank.applyOp]
      rw [create_err_eq b a ha]
      exact ⟨hk, hb⟩
    · simp only [Bank.applyOp]
      rw [create_ok_eq b a ha]
      have hnk : a ∉ b.balances.map Prod.fst := by
        rw [hk]
        exact ha
      refine ⟨?_, ?_⟩
      · simp [insertA_of_not_mem _ _ _ hnk, hk]
      · intro p hp
        rcases mem_insertA _ _ _ _ hp with h2 | h2
        · exact hb p h2
        · rw [h2]
          simp [U32MOD]
  | increaseAccount a n =>
    by_cases ha : a ∈ b.accounts
    · by_cases hn : n = 0
      · subst hn
        simp only [Bank.applyOp]
        rw [increase_err_zero b a ha]
        exact ⟨hk, hb⟩
      · simp only [Bank.applyOp]
        rw [increase_ok_eq b a n ha hn]
        have hak : a ∈ b.balances.map Prod.fst := by
          rw [hk]
          exact ha
        refine ⟨?_, ?_⟩
        · simp [insertA_map_fst_of_mem _ _ _ hak, hk]
        · intro p hp
          rcases mem_insertA _ _ _ _ hp with h2 | h2
          · exact hb p h2
          · rw [h2]
            exact Nat.mod_lt _ (by simp [U32MOD])
    · simp only [Bank.applyOp]
      rw [increase_err_notfound b a n ha]
      exact ⟨hk, hb⟩
  | decreaseAccount a n =>
    by_cases ha : a ∈ b.accounts
    · by_cases hn : n = 0
      · subst hn
        simp only [Bank.applyOp]
        rw [decrease_err_zero b a ha]
        exact ⟨hk, hb⟩
      · by_cases hlt : (lookupA b.balances a).getD 0 < n
        · simp only [Bank.applyOp]
          rw [decrease_err_insufficient b a n ha hn hlt]
          exact ⟨hk, hb⟩
        · simp only [Bank.applyOp]
          rw [decrease_ok_eq b a n ha hn hlt]
          have hak : a ∈ b.balances.map Prod.fst := by
            rw [hk]
            exact ha
          refine ⟨?_, ?_⟩
          · simp [insertA_map_fst_of_mem _ _ _ hak, hk]
          · intro p hp
            rcases mem_insertA _ _ _ _ hp with h2 | h2
            · exact hb p h2
            · rw [h2]
              exact lt_of_le_of_lt (Nat.sub_le _ _) (getD_balance_lt b hb a)
    · simp only [Bank.applyOp]
      rw [decrease_err_notfound b a n ha]
      exact ⟨hk, hb⟩
  | transfer s t n =>
    by_cases hne : s = t
    · subst hne
      simp only [Bank.applyOp]
      rw [transfer_err_self]
      exact ⟨hk, hb⟩
    · by_cases hs : s ∈ b.accounts
      · by_cases ht : t ∈ b.accounts
        · by_cases hn : n = 0
          · subst hn
            simp only [Bank.applyOp]
            rw [transfer_err_zero b s t hne hs ht]
            exact ⟨hk, hb⟩
          · by_cases hlt : (lookupA b.balances s).getD 0 < n
            · simp only [Bank.applyOp]
              rw [transfer_err_insufficient b s t n hne hs ht hn hlt]
              exact ⟨hk, hb⟩
            · simp only [Bank.applyOp]
              rw [transfer_ok_eq b s t n hne hs ht hn hlt]
              have hsk : s ∈ b.balances.map Prod.fst := by
                rw [hk]
                exact hs
              have htk : t ∈ (insertA b.balances s
                  ((lookupA b.balances s).getD 0 - n)).map Prod.fst := by
                rw [insertA_map_fst_of_mem _ _ _ hsk, hk]
                exact ht
              refine ⟨?_, ?_⟩
              · simp [insertA_map_fst_of_mem _ _ _ htk,
                      insertA_map_fst_of_mem _ _ _ hsk, hk]
              · intro p hp
                rcases mem_insertA _ _ _ _ hp with h2 | h2
                · rcases mem_insertA _ _ _ _ h2 with h3 | h3
                  · exact hb p h3
                  · rw [h3]
                    exact lt_of_le_of_lt (Nat.sub_le _ _)
                      (getD_balance_lt b hb s)
                · rw [h2]
                  exact Nat.mod_lt _ (by simp [U32MOD])
        · simp only [Bank.applyOp]
          rw [transfer_err_dst b s t n hne hs ht]
          exact ⟨hk, hb⟩
      · simp only [Bank.applyOp]
        rw [transfer_err_src b s t n hne hs]
        exact ⟨hk, hb⟩

theorem applyOps_preserves (P : Bank → Prop)
    (hstep : ∀ b op, P b → P (Bank.applyOp b op)) :
    ∀ (ops : List Operation) (b : Bank), P b → P (Bank.applyOps b ops) := by
  intro ops
  induction ops with
  | nil =>
    intro b h
    simpa [Bank.applyOps] using h
  | cons op rest ih =>
    intro b h
    simpa [Bank.applyOps] using ih (Bank.applyOp b op) (hstep b op h)

theorem bankInv_reachable (b : Bank) (hr : Reachable b) : BankInv b := by
  obtain ⟨ops, rfl⟩ := hr
  exact applyOps_preserves BankInv bankInv_applyOp ops Bank.new bankInv_new

/-- C9: in every state reachable from the empty ledger, an account has a
defined balance exactly when it exists, and every stored balance is a
non-negative integer below `2^32`; the invariant is preserved by every
public operation, succeeding or failing. -/
theorem balance_invariant :
    (∀ b : Bank, Reachable b →
      (∀ A : String, A ∈ b.accounts ↔ (lookupA b.balances A).isSome = true) ∧
      (∀ p ∈ b.balances, 0 ≤ p.2 ∧ p.2 < U32MOD)) ∧
    (∀ (b : Bank) (op : Operation), BankInv b →
      BankInv (Bank.applyOp b op)) := by
  refine ⟨?_, bankInv_applyOp⟩
  intro b hr
  obtain ⟨hk, hb⟩ := bankInv_reachable b hr
  refine ⟨?_, fun p hp => ⟨Nat.zero_le _, hb p hp⟩⟩
  intro A
  rw [lookupA_isSome_iff, hk]

theorem balance_invariant_witness :
    ((∀ A : String, A ∈ maxedTwoAccountBank.accounts ↔
        (lookupA maxedTwoAccountBank.balances A).isSome = true) ∧
      (∀ p ∈ maxedTwoAccountBank.balances, 0 ≤ p.2 ∧ p.2 < U32MOD)) ∧
    BankInv (Bank.applyOp Bank.new (Operation.createAccount "X")) :=
  ⟨balance_invariant.1 maxedTwoAccountBank
      ⟨[Operation.createAccount "A", Operation.createAccount "B",
        Operation.increaseAccount "A" 1,
        Operation.increaseAccount "B" (U32MOD - 1)], rfl⟩,
   balance_invariant.2 Bank.new (Operation.createAccount "X")
      ⟨rfl, by simp [Bank.new]⟩⟩

/-! ### Claim C8 -/

/-- The index invariant: an account has an index entry exactly when it
exists, and every index entry is a non-empty list of in-range history
positions. -/
def IdxInv (b : Bank) : Prop :=
  (∀ A : String,
    (lookupA b.account_operations_index A).isSome = true ↔ A ∈ b.accounts) ∧
  (∀ (A : String) (l : List OperationId),
    lookupA b.account_operations_index A = some l →
      l ≠ [] ∧ ∀ i ∈ l, i < b.history.length)

theorem idxInv_new : IdxInv Bank.new := by
  constructor
  · intro A
    simp [Bank.new, lookupA]
  · intro A l hl
    simp [Bank.new, lookupA] at hl


theorem idx_bound_weaken (idx : List (String × List OperationId))
    (m1 m2 : Nat) (h : m1 ≤ m2)
    (hbound : ∀ (A : String) (l : List OperationId),
      lookupA idx A = some l → l ≠ [] ∧ ∀ i ∈ l, i < m1) :
    ∀ (A : String) (l : List OperationId),
      lookupA idx A = some l → l ≠ [] ∧ ∀ i ∈ l, i < m2 :=
  fun A l hl => ⟨(hbound A l hl).1,
    fun i hi => Nat.lt_of_lt_of_le ((hbound A l hl).2 i hi) h⟩

theorem idx_bound_appendIdx (idx : List (String × List OperationId))
    (k : String) (id bound : Nat) (hid : id < bound)
    (hbound : ∀ (A : String) (l : List OperationId),
      lookupA idx A = some l → l ≠ [] ∧ ∀ i ∈ l, i < bound) :
    ∀ (A : String) (l : List OperationId),
      lookupA (appendIdx idx k id) A = some l →
        l ≠ [] ∧ ∀ i ∈ l, i < bound := by
  intro A l hl
  by_cases hA : k = A
  · subst hA
    rw [lookupA_appendIdx_self] at hl
    replace hl := Option.some.inj hl
    subst hl
    refine ⟨by simp, ?_⟩
    intro i hi
    rcases List.mem_append.mp hi with hi | hi
    · cases hc : lookupA idx k with
      | none =>
        rw [hc] at hi
        simp at hi
      | some l0 =>
        rw [hc] at hi
        simp at hi
        exact (hbound k l0 hc).2 i hi
    · obtain rfl := List.mem_singleton.mp hi
      exact hid
  · rw [lookupA_appendIdx_ne _ _ _ _ hA] at hl
    exact hbound A l hl

theorem idx_isSome_appendIdx (idx : List (String × List OperationId))
    (k : String) (len : Nat) (A : String) :
    (lookupA (appendIdx idx k len) A).isSome = true ↔
      (A = k ∨ (lookupA idx A).isSome = true) := by
  by_cases hA : k = A
  · subst hA
    simp [lookupA_appendIdx_self]
  · rw [lookupA_appendIdx_ne _ _ _ _ hA]
    have hA2 : A ≠ k := Ne.symm hA
    simp [hA2]

theorem idxInv_applyOp (b : Bank) (op : Operation) (h : IdxInv b) :
    IdxInv (Bank.applyOp b op) := by
  obtain ⟨hiff, hbound⟩ := h
  cases op with
  | createAccount a =>
    by_cases ha : a ∈ b.accounts
    · simp only [Bank.applyOp]
      rw [create_err_eq b a ha]
      exact ⟨hiff, hbound⟩
    · simp only [Bank.applyOp]
      rw [create_ok_eq b a ha]
      constructor
      · intro A
        rw [idx_isSome_appendIdx]
        simp only [List.mem_append, List.mem_singleton]
        rw [hiff A]
        tauto
      · have h1 := idx_bound_appendIdx b.account_operations_index a
          b.history.length (b.history.length + 1) (by omega)
          (idx_bound_weaken _ _ _ (by omega) hbound)
        simpa using h1
  | increaseAccount a n =>
    by_cases ha : a ∈ b.accounts
    · by_cases hn : n = 0
      · subst hn
        simp only [Bank.applyOp]
        rw [increase_err_zero b a ha]
        exact ⟨hiff, hbound⟩
      · simp only [Bank.applyOp]
        rw [increase_ok_eq b a n ha hn]
        constructor
        · intro A
          rw [idx_isSome_appendIdx]
          rw [hiff A]
          constructor
          · rintro (rfl | hmem)
            · exact ha
            · exact hmem
          · exact fun hmem => Or.inr hmem
        · have h1 := idx_bound_appendIdx b.account_operations_index a
            b.history.length (b.history.length + 1) (by omega)
            (idx_bound_weaken _ _ _ (by omega) hbound)
          simpa using h1
    · simp only [Bank.applyOp]
      rw [increase_err_notfound b a n ha]
      exact ⟨hiff, hbound⟩
  | decreaseAccount a n =>
    by_cases ha : a ∈ b.accounts
    · by_cases hn : n = 0
      · subst hn
        simp only [Bank.applyOp]
        rw [decrease_err_zero b a ha]
        exact ⟨hiff, hbound⟩
      · by_cases hlt : (lookupA b.balances a).getD 0 < n
        · simp only [Bank.applyOp]
          rw [decrease_err_insufficient b a n ha hn hlt]
          exact ⟨hiff, hbound⟩
        · simp only [Bank.applyOp]
          rw [decrease_ok_eq b a n ha hn hlt]
          constructor
          · intro A
            rw [idx_isSome_appendIdx]
            rw [hiff A]
            constructor
            · rintro (rfl | hmem)
              · exact ha
              · exact hmem
            · exact fun hmem => Or.inr hmem
          · have h1 := idx_bound_appendIdx b.account_operations_index a
              b.history.length (b.history.length + 1) (by omega)
              (idx_bound_weaken _ _ _ (by omega) hbound)
            simpa using h1
    · simp only [Bank.applyOp]
      rw [decrease_err_notfound b a n ha]
      exact ⟨hiff, hbound⟩
  | transfer s t n =>
    by_cases hne : s = t
    · subst hne
      simp only [Bank.applyOp]
      rw [transfer_err_self]
      exact ⟨hiff, hbound⟩
    · by_cases hs : s ∈ b.accounts
      · by_cases ht : t ∈ b.accounts
        · by_cases hn : n = 0
          · subst hn
            simp only [Bank.applyOp]
            rw [transfer_err_zero b s t hne hs ht]
            exact ⟨hiff, hbound⟩
          · by_cases hlt : (lookupA b.balances s).getD 0 < n
            · simp only [Bank.applyOp]
              rw [transfer_err_insufficient b s t n hne hs ht hn hlt]
              exact ⟨hiff, hbound⟩
            · simp only [Bank.applyOp]
              rw [transfer_ok_eq b s t n hne hs ht hn hlt]
              constructor
              · intro A
                rw [idx_isSome_appendIdx, idx_isSome_appendIdx]
                rw [hiff A]
                constructor
                · rintro (rfl | rfl | hmem)
                  · exact ht
                  · exact hs
                  · exact hmem
                · exact fun hmem => Or.inr (Or.inr hmem)
              · have h1 := idx_bound_appendIdx b.account_operations_index s
                  b.history.length (b.history.length + 1) (by omega)
                  (idx_bound_weaken _ _ _ (by omega) hbound)
                have h2 := idx_bound_appendIdx
                  (appendIdx b.account_operations_index s b.history.length) t
                  b.history.length (b.history.length + 1) (by omega) h1
                simpa using h2
        · simp only [Bank.applyOp]
          rw [transfer_err_dst b s t n hne hs ht]
          exact ⟨hiff, hbound⟩
      · simp only [Bank.applyOp]
        rw [transfer_err_src b s t n hne hs]
        exact ⟨hiff, hbound⟩

theorem idxInv_reachable (b : Bank) (hr : Reachable b) : IdxInv b := by
  obtain ⟨ops, rfl⟩ := hr
  exact applyOps_preserves IdxInv idxInv_applyOp ops Bank.new idxInv_new

/-- C8: on every reachable state, `get_account_history A` returns `none`
exactly when `A` was never created (has no index entry, equivalently is not
an account), and otherwise returns the non-empty list of history operations
at `A`'s indexed positions in index order, each position being in range of
the history; in particular it never returns an empty list for an existing
account. -/
theorem account_history_spec (b : Bank) (hr : Reachable b) (A : String) :
    (b.get_account_history A = none ↔
      lookupA b.account_operations_index A = none) ∧
    (b.get_account_history A = none ↔ A ∉ b.accounts) ∧
    (∀ l, b.get_account_history A = some l →
      l ≠ [] ∧
      ∃ ids, lookupA b.account_operations_index A = some ids ∧
        (∀ i ∈ ids, i < b.history.length) ∧
        l = ids.map
          (fun i => b.history.getD i (Operation.createAccount ""))) := by
  obtain ⟨hiff, hbound⟩ := idxInv_reachable b hr
  have hnone : b.get_account_history A = none ↔
      lookupA b.account_operations_index A = none := by
    simp only [Bank.get_account_history]
    cases hc : lookupA b.account_operations_index A with
    | none => simp
    | some ids => simp
  refine ⟨hnone, ?_, ?_⟩
  · rw [hnone]
    rw [← hiff A]
    cases hc : lookupA b.account_operations_index A with
    | none => simp
    | some ids => simp
  · intro l hl
    simp only [Bank.get_account_history] at hl
    cases hc : lookupA b.account_operations_index A with
    | none =>
      rw [hc] at hl
      simp at hl
    | some ids =>
      rw [hc] at hl
      replace hl := Option.some.inj hl
      obtain ⟨hne, hbd⟩ := hbound A ids hc
      refine ⟨?_, ids, rfl, hbd, hl.symm⟩
      rw [← hl]
      simpa using hne

theorem account_history_spec_witness :
    ((Bank.applyOps Bank.new
        [Operation.createAccount "X"]).get_account_history "Z" = none ↔
      lookupA (Bank.applyOps Bank.new
        [Operation.createAccount "X"]).account_operations_index "Z" =
        none) ∧
    ((Bank.applyOps Bank.new
        [Operation.createAccount "X"]).get_account_history "Z" = none ↔
      "Z" ∉ (Bank.applyOps Bank.new
        [Operation.createAccount "X"]).accounts) ∧
    (∀ l, (Bank.applyOps Bank.new
        [Operation.createAccount "X"]).get_account_history "Z" = some l →
      l ≠ [] ∧
      ∃ ids, lookupA (Bank.applyOps Bank.new
          [Operation.createAccount "X"]).account_operations_index "Z" =
            some ids ∧
        (∀ i ∈ ids, i < (Bank.applyOps Bank.new
          [Operation.createAccount "X"]).history.length) ∧
        l = ids.map (fun i => (Bank.applyOps Bank.new
          [Operation.createAccount "X"]).history.getD i
            (Operation.createAccount ""))) :=
  account_history_spec (Bank.applyOps Bank.new [Operation.createAccount "X"])
    ⟨[Operation.createAccount "X"], rfl⟩ "Z"
